import Mathlib

/-!
Verification development for the spoken-dialogue turn-taking pipeline of the
whisplay-ai-chatbot repository.  Each definition is a shallow embedding of a
function or class from the TypeScript source; the source file and symbol are
named in the doc comment of every definition.  Machine timestamps are `Int`
(JS numbers under subtraction), byte buffers are `List Nat`, strings are Lean
`String`/`List Char` (code points; the inputs of all concrete theorems are
BMP text, where JS UTF-16 length and code-point length agree).
-/

namespace Whisplay

/-! Section 1: sentence segmentation, from src/utils/image.ts (splitSentences,
purifyTextForTTS) and the regex /.*?([。！？!?，,]|\.)(?=\s|$)/gs used there. -/

/-- Character class of the regex alternation ([。！？!?，,]|\.): the sentence
terminators recognised by splitSentences. -/
def isTerminator (c : Char) : Bool :=
  c = '。' || c = '！' || c = '？' || c = '!' || c = '?' || c = '，' || c = ',' || c = '.'

/-- JS \s (the lookahead (?=\s|$)) restricted to the ASCII whitespace
characters; also the character set removed by String.prototype.trim on the
inputs considered here. -/
def isWsChar (c : Char) : Bool :=
  c = ' ' || c = '\t' || c = '\n' || c = '\r' || c = '\x0b' || c = '\x0c'

/-- JS String.prototype.trim: drop whitespace from both ends. -/
def trimChars (cs : List Char) : List Char :=
  ((cs.dropWhile isWsChar).reverse.dropWhile isWsChar).reverse

/-- One step of regex.exec for /.*?([。！？!?，,]|\.)(?=\s|$)/gs starting at the
head of `cs`: the lazy .*? makes the match end at the first terminator that is
followed by whitespace or the end of input.  Returns the match (text up to and
including the terminator) and the rest of the input after it, or `none` when
no further match exists. -/
def findTermSplit : List Char → Option (List Char × List Char)
  | [] => none
  | c :: rest =>
    if isTerminator c && (rest.isEmpty || isWsChar (rest.headD ' ')) then
      some ([c], rest)
    else
      match findTermSplit rest with
      | some (m, r) => some (c :: m, r)
      | none => none

/-- Test /[0-9\.。！？!?，,]/.test(sentence) from splitSentences: true iff the
candidate CONTAINS a digit or one of the punctuation characters (note: the
source tests containment, not that the candidate consists only of such
characters). -/
def hasDigitOrPunct (cs : List Char) : Bool :=
  cs.any (fun c => c.isDigit || isTerminator c)

theorem findTermSplit_rest_length :
    ∀ (cs m r : List Char), findTermSplit cs = some (m, r) → r.length < cs.length := by
  intro cs
  induction cs with
  | nil => intro m r h; simp [findTermSplit] at h
  | cons c rest ih =>
    intro m r h
    simp only [findTermSplit] at h
    split at h
    · cases h
      simp
    · cases hrec : findTermSplit rest with
      | none => rw [hrec] at h; cases h
      | some p =>
        obtain ⟨m1, r1⟩ := p
        rw [hrec] at h
        have hlt := ih m1 r1 hrec
        cases h
        simp only [List.length_cons]
        omega

/-- Fuel-indexed form of the while (regex.exec) loop of splitSentences; the
fuel only bounds the number of loop iterations (each match consumes at least
one character, so `cs.length` fuel is always enough — see
`extractRawFuel_congr`).  Each step takes the next match, trims it, and
keeps it when it passes the hasDigitOrPunct test (pushing it and advancing
lastIndex); on test failure it resets lastIndex and stops, leaving the
unconsumed input as the remaining text. -/
def extractRawFuel : Nat → List Char → List (List Char) × List Char
  | 0, cs => ([], cs)
  | fuel + 1, cs =>
    match findTermSplit cs with
    | none => ([], cs)
    | some (m, r) =>
      let sentence := trimChars m
      if hasDigitOrPunct sentence then
        let res := extractRawFuel fuel r
        (sentence :: res.1, res.2)
      else ([], cs)

theorem extractRawFuel_congr :
    ∀ (n f1 f2 : Nat) (cs : List Char), cs.length ≤ n → cs.length ≤ f1 → cs.length ≤ f2 →
      extractRawFuel f1 cs = extractRawFuel f2 cs := by
  intro n
  induction n with
  | zero =>
    intro f1 f2 cs h0 _ _
    have : cs = [] := List.length_eq_zero.mp (Nat.le_zero.mp h0)
    subst this
    cases f1 <;> cases f2 <;> simp [extractRawFuel, findTermSplit]
  | succ n ih =>
    intro f1 f2 cs h0 h1 h2
    cases cs with
    | nil => cases f1 <;> cases f2 <;> simp [extractRawFuel, findTermSplit]
    | cons c rest =>
      cases f1 with
      | zero => simp at h1
      | succ g1 =>
        cases f2 with
        | zero => simp at h2
        | succ g2 =>
          simp only [extractRawFuel]
          cases hrec : findTermSplit (c :: rest) with
          | none => rfl
          | some p =>
            obtain ⟨m, r⟩ := p
            have hlt := findTermSplit_rest_length _ m r hrec
            simp only [List.length_cons] at h0 h1 h2 hlt
            by_cases hd : hasDigitOrPunct (trimChars m) = true
            · simp only [hd, if_true]
              rw [ih g1 g2 r (by omega) (by omega) (by omega)]
            · simp [hd]

/-- The while (regex.exec) loop of splitSentences, run with sufficient fuel:
returns the list of trimmed extracted sentences (before short-sentence
merging) and the unconsumed remaining text. -/
def extractRaw (cs : List Char) : List (List Char) × List Char :=
  extractRawFuel cs.length cs

/-- Unfolding equation for extractRaw: one loop iteration of the
splitSentences extraction. -/
theorem extractRaw_unfold (cs : List Char) :
    extractRaw cs =
      match findTermSplit cs with
      | none => ([], cs)
      | some (m, r) =>
        if hasDigitOrPunct (trimChars m) then
          ((trimChars m) :: (extractRaw r).1, (extractRaw r).2)
        else ([], cs) := by
  cases hcs : cs with
  | nil => simp [extractRaw, extractRawFuel, findTermSplit]
  | cons c rest =>
    simp only [extractRaw, List.length_cons, extractRawFuel]
    cases hrec : findTermSplit (c :: rest) with
    | none => rfl
    | some p =>
      obtain ⟨m, r⟩ := p
      have hlt := findTermSplit_rest_length _ m r hrec
      simp only [List.length_cons] at hlt
      by_cases hd : hasDigitOrPunct (trimChars m) = true
      · simp only [hd, if_true]
        rw [extractRawFuel_congr rest.length rest.length r.length r (by omega) (by omega)
          (by omega)]
      · simp [hd]

/-- The short-sentence merging loop of splitSentences: accumulate
`sentence + " "` into a buffer while the extended buffer stays within 60
characters, flushing the buffer when it would grow longer. -/
def mergeLoop : List String → String → List String
  | [], buffer => if buffer ≠ "" then [buffer] else []
  | s :: rest, buffer =>
    if (buffer ++ s ++ " ").length ≤ 60 then mergeLoop rest (buffer ++ s ++ " ")
    else if buffer ≠ "" then buffer :: mergeLoop rest (s ++ " ")
    else mergeLoop rest (s ++ " ")

/-- splitSentences from src/utils/image.ts: extract sentences at terminator
positions followed by whitespace or end of input, merge short sentences, and
return the merged sentences plus the trimmed remaining text. -/
def splitSentences (text : String) : List String × String :=
  let res := extractRaw text.data
  let sentences := res.1.map (fun cs => String.mk cs)
  (mergeLoop sentences "", String.mk (trimChars res.2))

/-- Approximation of the emoji-presentation characters removed by
purifyTextForTTS (the regex class \p{Emoji_Presentation} together with the
zero-width joiner and the variation selector); exact on the emoji blocks
U+1F000..U+1FAFF, and exact (vacuously) on all inputs appearing in the
theorems below, which are ASCII/CJK text. -/
def isEmojiLike (c : Char) : Bool :=
  (0x1F000 ≤ c.toNat && c.toNat ≤ 0x1FAFF) || c.toNat = 0x200d || c.toNat = 0xfe0f

/-- purifyTextForTTS from src/utils/image.ts: remove the characters * # ~ and
emoji, then trim. -/
def purifyTextForTTS (s : String) : String :=
  String.mk (trimChars (s.data.filter (fun c => !(c = '*' || c = '#' || c = '~' || isEmojiLike c))))

/-- The regex [\u{1F600}-\u{1F64F}] applied in StreamResponser.endPartial:
remove characters of the emoticons block. -/
def stripEmoticons (str : String) : String :=
  String.mk (str.data.filter (fun c => !(0x1F600 ≤ c.toNat && c.toNat ≤ 0x1F64F)))

/-! Section 2: the energy-based voice activity detector, from
src/device/audio-streaming.ts (class SimpleVAD).  A PCM chunk is modelled as
its list of decoded 16-bit signed samples (the source reads them with
readInt16LE); timestamps (Date.now()) are Int. -/

/-- Tunables of SimpleVAD (constructor options with their defaults). -/
structure VADConfig where
  energyThreshold : Nat := 500
  silenceDuration : Int := 1000
  speechDuration : Int := 200

/-- Mutable state of SimpleVAD. -/
structure VADState where
  lastSpeechTime : Int := 0
  lastSilenceTime : Int := 0
  isSpeaking : Bool := false
deriving DecidableEq, Repr

/-- Sum of squared samples, the accumulator of SimpleVAD.processChunk. -/
def sumSquares (samples : List Int) : Int :=
  (samples.map (fun s => s * s)).sum

/-- The comparison energy > energyThreshold of processChunk, where
energy = sqrt(sumSquares / numSamples): squaring both sides (both
non-negative) gives the exact integer form sumSquares > threshold^2 * n.
For an empty chunk the source computes sqrt(0/0) = NaN and NaN > t is false,
matching 0 > 0 here. -/
def chunkIsSpeech (threshold : Nat) (samples : List Int) : Bool :=
  (threshold : Int) ^ 2 * samples.length < sumSquares samples

/-- Events emitted by SimpleVAD (the per-chunk "energy" debug emission is not
modelled; no claim concerns it). -/
inductive VADEvent
  | speechStart
  | speechEnd
deriving DecidableEq, Repr

/-- SimpleVAD.processChunk: on a speech chunk record lastSpeechTime and, when
not yet speaking and enough time has passed since the last silence, start
speaking; on a silence chunk record lastSilenceTime and, when speaking and
enough time has passed since the last speech, stop speaking. -/
def vadStep (cfg : VADConfig) (s : VADState) (now : Int) (chunk : List Int) :
    VADState × List VADEvent :=
  if chunkIsSpeech cfg.energyThreshold chunk then
    let s1 := { s with lastSpeechTime := now }
    if !s1.isSpeaking && cfg.speechDuration ≤ now - s1.lastSilenceTime then
      ({ s1 with isSpeaking := true }, [.speechStart])
    else (s1, [])
  else
    let s1 := { s with lastSilenceTime := now }
    if s1.isSpeaking && cfg.silenceDuration ≤ now - s1.lastSpeechTime then
      ({ s1 with isSpeaking := false }, [.speechEnd])
    else (s1, [])

/-- Feed a timed trace of chunks through SimpleVAD, collecting all emitted
events in order. -/
def vadRun (cfg : VADConfig) (s : VADState) :
    List (Int × List Int) → VADState × List VADEvent
  | [] => (s, [])
  | (now, chunk) :: rest =>
    let step := vadStep cfg s now chunk
    let tail := vadRun cfg step.1 rest
    (tail.1, step.2 ++ tail.2)

/-- SimpleVAD.reset: force not-speaking and reset the timestamps (the source
sets lastSilenceTime to Date.now()). -/
def vadReset (now : Int) : VADState :=
  { lastSpeechTime := 0, lastSilenceTime := now, isSpeaking := false }

/-- Event alternation: starting from speaking state `sp`, the event list
alternates speech-start / speech-end correctly (a start only when not
speaking, an end only when speaking). -/
def altOk : Bool → List VADEvent → Bool
  | _, [] => true
  | sp, .speechStart :: rest => !sp && altOk true rest
  | sp, .speechEnd :: rest => sp && altOk false rest

theorem vadStep_altOk (cfg : VADConfig) (s : VADState) (now : Int) (chunk : List Int)
    (tail : List VADEvent) :
    altOk s.isSpeaking ((vadStep cfg s now chunk).2 ++ tail) =
      altOk (vadStep cfg s now chunk).1.isSpeaking tail := by
  unfold vadStep
  by_cases h1 : chunkIsSpeech cfg.energyThreshold chunk
  · simp only [h1, if_true]
    by_cases h2 : (!s.isSpeaking && cfg.speechDuration ≤ now - s.lastSilenceTime) = true
    · simp only [h2, if_true]
      have hs : s.isSpeaking = false := by
        cases hsp : s.isSpeaking <;> simp [hsp] at h2 ⊢
      simp [altOk, hs]
    · simp only [h2, if_false]
      simp [altOk]
  · simp only [h1, if_false]
    by_cases h2 : (s.isSpeaking && cfg.silenceDuration ≤ now - s.lastSpeechTime) = true
    · simp only [h2, if_true]
      have hs : s.isSpeaking = true := by
        cases hsp : s.isSpeaking <;> simp [hsp] at h2 ⊢
      simp [altOk, hs]
    · simp only [h2, if_false]
      simp [altOk]

theorem vadRun_altOk (cfg : VADConfig) :
    ∀ (tr : List (Int × List Int)) (s : VADState),
      altOk s.isSpeaking (vadRun cfg s tr).2 = true := by
  intro tr
  induction tr with
  | nil => intro s; simp [vadRun, altOk]
  | cons p rest ih =>
    intro s
    obtain ⟨now, chunk⟩ := p
    simp only [vadRun]
    rw [vadStep_altOk]
    exact ih _

/-! Section 3: the binary wire protocol of the streaming recognizer, from
src/cloud-api/volcengine/volcengine-asr.ts (class VolcengineAsrClient).
Bytes are Nat; the concrete header bytes are below 256 as in the source, and
payload bytes are never inspected arithmetically by the parser.
gzip (zlib.gzipSync/gunzipSync) and JSON (JSON.stringify/parse) are external
libraries, modelled as codecs bundled with their library contract
(decompression inverts compression, parsing inverts serialization). -/

/-- Buffer.writeUInt32BE: the four big-endian bytes of n (n below 2^32). -/
def u32be (n : Nat) : List Nat :=
  [n / 2 ^ 24 % 256, n / 2 ^ 16 % 256, n / 2 ^ 8 % 256, n % 256]

/-- Buffer.readUInt32BE at an offset (out-of-range bytes read as 0). -/
def readUInt32BE (bs : List Nat) (off : Nat) : Nat :=
  bs.getD off 0 * 2 ^ 24 + bs.getD (off + 1) 0 * 2 ^ 16 +
    bs.getD (off + 2) 0 * 2 ^ 8 + bs.getD (off + 3) 0

theorem readUInt32BE_u32be (n : Nat) (rest : List Nat) (h : n < 2 ^ 32) :
    readUInt32BE (u32be n ++ rest) 0 = n := by
  simp only [u32be, readUInt32BE, List.cons_append, List.nil_append]
  norm_num [List.getD_cons_zero, List.getD_cons_succ]
  omega

/-- DefaultFullClientWsHeader: header size 1 word, version 1; message type 1
(full client request), flags 0; serialization JSON (1), compression gzip (1). -/
def DefaultFullClientWsHeader : List Nat := [0x11, 0x10, 0x11, 0x00]

/-- DefaultAudioOnlyWsHeader: message type 2 (audio-only request), flags 0. -/
def DefaultAudioOnlyWsHeader : List Nat := [0x11, 0x20, 0x11, 0x00]

/-- DefaultLastAudioWsHeader: message type 2, flags 2 (terminal chunk). -/
def DefaultLastAudioWsHeader : List Nat := [0x11, 0x22, 0x11, 0x00]

/-- SERVER_FULL_RESPONSE message type. -/
def SERVER_FULL_RESPONSE : Nat := 0x09

/-- SERVER_ACK message type. -/
def SERVER_ACK : Nat := 0x0b

/-- SERVER_ERROR_RESPONSE message type. -/
def SERVER_ERROR_RESPONSE : Nat := 0x0f

/-- The gzip compressor pair used by the client (zlib.gzipSync /
zlib.gunzipSync), abstracted as any byte transformation satisfying the zlib
round-trip contract. -/
structure ZipCodec where
  compress : List Nat → List Nat
  decompress : List Nat → List Nat
  decompress_compress : ∀ b, decompress (compress b) = b

/-- JSON.stringify / JSON.parse on a structured value of type α, abstracted
as any serialization satisfying the JSON round-trip contract (deserialize is
partial since JSON.parse can fail on arbitrary bytes). -/
structure SerCodec (α : Type) where
  serialize : α → List Nat
  deserialize : List Nat → Option α
  deserialize_serialize : ∀ a, deserialize (serialize a) = some a

/-- The structured full-client request built by
VolcengineAsrClient.constructRequest (field layout of the JSON object; the
reqid is a fresh uuid string). -/
structure FullClientRequest where
  appid : String
  cluster : String
  token : String
  uid : String
  reqid : String
  nbest : Nat
  workflow : String
  result_type : String
  sequence : Nat
  format : String
  codec : String
deriving DecidableEq, Repr

/-- VolcengineAsrClient.handleOpen: the full-client-request frame sent at
connection open — header, 4-byte big-endian length of the gzip-compressed
serialized request, then the compressed payload. -/
def fullClientRequestFrame {α : Type} (gz : ZipCodec) (ser : SerCodec α) (req : α) :
    List Nat :=
  let compressedReq := gz.compress (ser.serialize req)
  DefaultFullClientWsHeader ++ u32be compressedReq.length ++ compressedReq

/-- A frame with the same layout but tagged with the server full-response
message type (0x9): header byte 1 is 9<<4. -/
def serverFullResponseFrame (payload : List Nat) : List Nat :=
  [0x11, 0x90, 0x11, 0x00] ++ u32be payload.length ++ payload

/-- VolcengineAsrClient.parseResponse: split off the header (size from the
low nibble of byte 0), classify by the high nibble of byte 1, read the
payload size and body per message type, then gunzip (when the compression
nibble is 1) and JSON-parse (when the serialization nibble is 1).  `none`
models the empty object {} returned when payloadSize is 0 or the
serialization method is unknown, and a JSON.parse failure. -/
def parseResponse {α : Type} (gz : ZipCodec) (ser : SerCodec α) (msg : List Nat) :
    Option α :=
  let header0 := msg.getD 0 0
  let headerSize := header0 % 16
  let headerBytes := headerSize * 4
  let messageType := msg.getD 1 0 / 16
  let serializationMethod := msg.getD 2 0 / 16
  let messageCompression := msg.getD 2 0 % 16
  let payload := msg.drop headerBytes
  let sized : Nat × List Nat :=
    if messageType = SERVER_FULL_RESPONSE then
      (readUInt32BE payload 0, payload.drop 4)
    else if messageType = SERVER_ACK then
      if 8 ≤ payload.length then (readUInt32BE payload 4, payload.drop 8)
      else (0, [])
    else if messageType = SERVER_ERROR_RESPONSE then
      (readUInt32BE payload 4, payload.drop 8)
    else (0, [])
  if sized.1 = 0 then none
  else
    let payloadMsg := if messageCompression = 1 then gz.decompress sized.2 else sized.2
    if serializationMethod = 1 then ser.deserialize payloadMsg else none

/-- State of VolcengineAsrClient relevant to buffering and framing:
audioBuffers is the pending chunk list, sentFrames the ghost log of ws.send
calls, timerActive the 500 ms flush interval, wsClosed whether close() shut
the socket. -/
structure VolcState where
  audioBuffers : List (List Nat)
  sentFrames : List (List Nat)
  timerActive : Bool
  wsClosed : Bool
deriving DecidableEq, Repr

/-- The flush interval of handleOpen (setInterval period, milliseconds). -/
def sendIntervalMs : Nat := 500

/-- VolcengineAsrClient.sendChunk: frame one (concatenated) chunk — terminal
frames use DefaultLastAudioWsHeader, others DefaultAudioOnlyWsHeader —
with the 4-byte big-endian length of the gzip-compressed chunk. -/
def sendChunkFrame (gz : ZipCodec) (isLastSegment : Bool) (chunk : List Nat) :
    List Nat :=
  let header := if isLastSegment then DefaultLastAudioWsHeader else DefaultAudioOnlyWsHeader
  let compressedAudio := gz.compress chunk
  header ++ u32be compressedAudio.length ++ compressedAudio

/-- VolcengineAsrClient.send: push the chunk onto audioBuffers (nothing else
happens; no frame is transmitted). -/
def clientSend (s : VolcState) (audioData : List Nat) : VolcState :=
  { s with audioBuffers := s.audioBuffers ++ [audioData] }

/-- One tick of the 500 ms send timer installed by handleOpen: when the
buffer is non-empty, splice out all of it and send its concatenation as a
single audio-only frame. -/
def timerTick (gz : ZipCodec) (s : VolcState) : VolcState :=
  if s.audioBuffers.isEmpty then s
  else
    { s with
      audioBuffers := [],
      sentFrames := s.sentFrames ++ [sendChunkFrame gz false s.audioBuffers.flatten] }

/-- VolcengineAsrClient.end: clear the flush interval and, when the buffer is
non-empty, send its concatenation as a terminal audio frame.  The socket is
not closed. -/
def clientEnd (gz : ZipCodec) (s : VolcState) : VolcState :=
  let s1 := { s with timerActive := false }
  if s1.audioBuffers.isEmpty then s1
  else
    { s1 with
      sentFrames := s1.sentFrames ++ [sendChunkFrame gz true s1.audioBuffers.flatten] }

/-- VolcengineAsrClient.close: clear the flush interval and close the socket. -/
def clientClose (s : VolcState) : VolcState :=
  { s with timerActive := false, wsClosed := true }

/-- Identity zip codec: a concrete inhabitant of the zlib contract, used to
evaluate the frame functions on concrete inputs. -/
def idZip : ZipCodec :=
  { compress := id, decompress := id, decompress_compress := fun _ => rfl }

/-- A concrete serialization codec for Nat (two-byte tagging), used to
evaluate the frame functions on concrete inputs. -/
def natSer : SerCodec Nat :=
  { serialize := fun n => [n, 0]
    deserialize := fun l =>
      match l with
      | [a, b] => if b = 0 then some a else none
      | _ => none
    deserialize_serialize := fun a => by simp }

/-! Section 4: StreamingASR.end, from src/cloud-api/streaming-asr.ts.  The
promise returned by end() races a 2000 ms timeout (resolving with the current
partial text) against the once-listener for the first final result.  A
recognition message (the onMessage payload) is `none` when data.result[0] is
missing (the callback ignores it), otherwise carries the text (defaulted to
empty by `|| ""`) and the optional is_final field. -/

/-- One recognition result as read by StreamingASR.setupClient.onMessage:
text is result.text || "", isFinalField models the optional is_final. -/
structure AsrResultMsg where
  text : String
  isFinalField : Option Bool
deriving DecidableEq, Repr

/-- The test result.is_final !== false: a result is final unless is_final is
present and false. -/
def msgIsFinal (r : AsrResultMsg) : Bool :=
  r.isFinalField ≠ some false

/-- The 2000 ms timeout of StreamingASR.end. -/
def asrTimeoutMs : Int := 2000

/-- Resolution value of the promise returned by StreamingASR.end, given the
partial text held when end() is called and the timed messages delivered
afterwards (timestamps relative to the end() call, in delivery order).  A
message at or after 2000 ms is beaten by the timeout, which resolves with the
partial text accumulated so far; a final message before the timeout resolves
with its text (and cancels the timeout); a non-final message updates the
partial text. -/
def endOutcome (pendingText : String) : List (Int × Option AsrResultMsg) → String
  | [] => pendingText
  | (t, m) :: rest =>
    if asrTimeoutMs ≤ t then pendingText
    else
      match m with
      | none => endOutcome pendingText rest
      | some r => if msgIsFinal r then r.text else endOutcome r.text rest

/-! Section 5: StreamResponser, from src/core/StreamResponsor.ts, together
with the audio-output device calls playAudioData / stopPlaying from
src/device/audio.ts.  The JS names partialContent / partial / endPartial are
rendered pendingContent / feedText / endFeed.  Synthesis jobs are numbered
globally in push order (jobsLog is the append-only ghost log of every job
text ever pushed; speakArray holds the live global ids).  The cooperative
event-loop semantics is a trace of atomic events: a text fragment arriving
from the LLM stream, the stream end, a TTS promise resolving, one iteration
of the playNext loop (which plays only when the job awaited at currentIndex
has resolved, models the 1 s backoff, or resolves the play-end promise), and
the stop() call. -/

/-- State of a StreamResponser instance, with ghost fields recording
externally observable actions: resolved (settled TTS promises), jobsLog
(every dispatched job text in order), playedLog (global ids passed to
playAudioData in call order), playEnded (playEndResolve invoked), endSignaled
(endPartial invoked — the end-of-stream signal), deviceStopped (stopPlaying
invoked), backoffs (1 s waits taken by the playback loop). -/
structure RState where
  pendingContent : String
  speakArray : List Nat
  parsedSentences : List String
  isPlaying : Bool
  currentIndex : Nat
  resolved : List Nat
  jobsLog : List String
  playedLog : List Nat
  playEnded : Bool
  endSignaled : Bool
  deviceStopped : Bool
  backoffs : Nat
deriving DecidableEq, Repr

/-- The initial StreamResponser state. -/
def rinit : RState :=
  { pendingContent := "", speakArray := [], parsedSentences := [], isPlaying := false,
    currentIndex := 0, resolved := [], jobsLog := [], playedLog := [],
    playEnded := false, endSignaled := false, deviceStopped := false, backoffs := 0 }

/-- The sentence-to-job pipeline of StreamResponser.partial: strip emphasis
markers and emoji from each extracted sentence and drop the ones that become
empty. -/
def newJobTexts (sentences : List String) : List String :=
  (sentences.map purifyTextForTTS).filter (· ≠ "")

/-- StreamResponser.partial: append the fragment, replace newlines with
spaces, split into sentences, push the merged sentences to parsedSentences,
dispatch a TTS job per purified non-empty sentence, and keep the remaining
text as pendingContent. -/
def feedText (s : RState) (text : String) : RState :=
  let pc := String.mk ((s.pendingContent ++ text).data.map (fun c => if c = '\n' then ' ' else c))
  let res := splitSentences pc
  if res.1.isEmpty then { s with pendingContent := res.2 }
  else
    let jobs := newJobTexts res.1
    let ids := (List.range jobs.length).map (· + s.jobsLog.length)
    { s with
      pendingContent := res.2,
      parsedSentences := s.parsedSentences ++ res.1,
      speakArray := s.speakArray ++ ids,
      jobsLog := s.jobsLog ++ jobs }

/-- StreamResponser.endPartial: flush any remaining pendingContent as a last
sentence (strip emoticons; dispatch a TTS job when the trimmed text is
non-empty), report the joined sentences to the text callback (external) and
clear them — in the source pendingContent is first pushed onto
parsedSentences, which is then emptied, so the net state has parsedSentences
cleared.  The ghost endSignaled records that the end-of-stream flush was
invoked. -/
def endFeed (s : RState) : RState :=
  if s.pendingContent ≠ "" then
    if String.mk (trimChars (stripEmoticons s.pendingContent).data) ≠ "" then
      { s with
        parsedSentences := [], pendingContent := "",
        speakArray := s.speakArray ++ [s.jobsLog.length],
        jobsLog := s.jobsLog ++ [purifyTextForTTS (stripEmoticons s.pendingContent)],
        endSignaled := true }
    else { s with parsedSentences := [], pendingContent := "", endSignaled := true }
  else { s with parsedSentences := [], endSignaled := true }

/-- One iteration of the playNext loop of StreamResponser.playAudioInOrder:
when a job is queued at currentIndex, play it if its promise has resolved
(await, playAudioData, advance) and otherwise keep awaiting; when the queue
is exhausted but pendingContent is non-empty, wait 1 s and re-check; when the
queue is exhausted and pendingContent is empty, resolve the play-end promise
and clear the array.  Note: this collapses the queue check and the suspension
at `await this.speakArray[currentIndex]` into one atomic step guarded by the
live queue.  For the stop-free traces quantified over below the collapse is
faithful (no event shrinks the queue between the check and the play); for
traces containing stop() it is not — the suspended continuation of the
source holds the captured promise and plays it even after stop() has cleared
the array — and the refined model BargeState below makes that suspension
point explicit. -/
def playStep (s : RState) : RState :=
  if s.currentIndex < s.speakArray.length then
    let gid := s.speakArray.getD s.currentIndex 0
    if s.resolved.contains gid then
      { s with
        isPlaying := true,
        playedLog := s.playedLog ++ [gid],
        currentIndex := s.currentIndex + 1 }
    else s
  else if s.pendingContent ≠ "" then
    { s with backoffs := s.backoffs + 1 }
  else
    { s with isPlaying := false, playEnded := true, speakArray := [], currentIndex := 0 }

/-- The backoff delay of the playNext loop (setTimeout period, milliseconds). -/
def backoffDelayMs : Nat := 1000

/-- StreamResponser.stop: clear the queue and the pending text, resolve the
play-end promise, and instruct the audio-output device to halt
(stopPlaying()). -/
def rstop (s : RState) : RState :=
  { s with
    speakArray := [], pendingContent := "", parsedSentences := [],
    isPlaying := false, playEnded := true, deviceStopped := true }

/-- Atomic events of the cooperative event loop acting on a StreamResponser. -/
inductive REvent
  | feed (text : String)
  | endFeedEv
  | resolve (i : Nat)
  | player
  | stopEv
deriving DecidableEq, Repr

/-- Apply one event. -/
def rstep (s : RState) : REvent → RState
  | .feed t => feedText s t
  | .endFeedEv => endFeed s
  | .resolve i => { s with resolved := s.resolved ++ [i] }
  | .player => playStep s
  | .stopEv => rstop s

/-- Run a trace of events from a state. -/
def rrun (s : RState) (tr : List REvent) : RState :=
  tr.foldl rstep s

/-- Traces that never invoke StreamResponser.stop. -/
def noStop (tr : List REvent) : Prop :=
  REvent.stopEv ∉ tr

instance (tr : List REvent) : Decidable (noStop tr) := by
  unfold noStop; infer_instance

/-! Section 6: the ConversationController, from src/core/ChatFlow.ts (class
ChatFlow).  Only the fields the claims are about are modelled; display(...)
and the recording devices are external fire-and-forget collaborators. -/

/-- ChatFlow state: the current flow name, the turn id (answerId), the
recognized text, the thinking accumulator, and the owned StreamResponser. -/
structure CState where
  flowName : String
  answerId : Nat
  asrText : String
  pendingThinking : String
  thinkingSentences : List String
  r : RState
deriving DecidableEq, Repr

/-- The state mutations of setCurrentFlow("listening") (ChatFlow lines
327-329): increment answerId, set the flow name, clear asrText.  Device-side
effects (recorder/streaming recognizer start, display) are external. -/
def setListening (c : CState) : CState :=
  { c with answerId := c.answerId + 1, flowName := "listening", asrText := "" }

/-- The onButtonPressed handler registered by the answer case (ChatFlow lines
507-510, the registration in force during answering): stopPlaying() on the
StreamResponser, then setCurrentFlow("listening"). -/
def answerOnButtonPressed (c : CState) : CState :=
  setListening { c with r := rstop c.r }

/-- ChatFlow.partialThinkingCallback: accumulate the thinking fragment, split
into sentences, push them to thinkingSentences, keep the remainder. -/
def thinkingCb (c : CState) (t : String) : CState :=
  let pt := c.pendingThinking ++ t
  let res := splitSentences pt
  if res.1.isEmpty then { c with pendingThinking := res.2 }
  else
    { c with
      pendingThinking := res.2,
      thinkingSentences := c.thinkingSentences ++ res.1 }

/-- The onPartialText callback passed to chatWithLLMStream by the answer
case: currentAnswerId === this.answerId && partial(text). -/
def answerFeedCb (captured : Nat) (c : CState) (text : String) : CState :=
  if captured = c.answerId then { c with r := feedText c.r text } else c

/-- The onStreamEnd callback passed to chatWithLLMStream by the answer case:
currentAnswerId === this.answerId && endPartial(). -/
def answerEndCb (captured : Nat) (c : CState) : CState :=
  if captured = c.answerId then { c with r := endFeed c.r } else c

/-- The onPartialThinking callback passed to chatWithLLMStream by the answer
case: currentAnswerId === this.answerId && this.partialThinkingCallback(t). -/
def answerThinkCb (captured : Nat) (c : CState) (text : String) : CState :=
  if captured = c.answerId then thinkingCb c text else c

/-! Section 7: helper lemmas shared by the claim theorems. -/

/-- Playback-ordering invariant of a StreamResponser: the loop cursor stays
inside the queue, the playAudioData log followed by the unplayed tail of the
queue lists the global job ids in push order, and every played job had a
resolved promise. -/
def playInv (s : RState) : Prop :=
  s.currentIndex ≤ s.speakArray.length ∧
  s.playedLog ++ s.speakArray.drop s.currentIndex = List.range s.jobsLog.length ∧
  ∀ i ∈ s.playedLog, i ∈ s.resolved

theorem playInv_rinit : playInv rinit := by
  refine ⟨by simp [rinit], by simp [rinit], by simp [rinit]⟩

theorem range_append_shift (n k : Nat) :
    List.range n ++ (List.range k).map (· + n) = List.range (n + k) := by
  rw [List.range_add]
  congr 1
  exact List.map_congr_left fun x _ => Nat.add_comm x n

theorem drop_append_of_le {α : Type} (l₁ l₂ : List α) (n : Nat) (h : n ≤ l₁.length) :
    (l₁ ++ l₂).drop n = l₁.drop n ++ l₂ := by
  rw [List.drop_append_eq_append_drop, Nat.sub_eq_zero_of_le h, List.drop_zero]

theorem playInv_feedText (s : RState) (t : String) (h : playInv s) :
    playInv (feedText s t) := by
  obtain ⟨h1, h2, h3⟩ := h
  unfold feedText
  dsimp only
  split
  · exact ⟨h1, h2, h3⟩
  · refine ⟨by simp; omega, ?_, h3⟩
    simp only [List.length_append]
    rw [drop_append_of_le _ _ _ h1, ← List.append_assoc, h2]
    exact range_append_shift _ _

theorem playInv_endFeed (s : RState) (h : playInv s) : playInv (endFeed s) := by
  obtain ⟨h1, h2, h3⟩ := h
  unfold endFeed
  split
  · split
    · refine ⟨by simp; omega, ?_, h3⟩
      simp only [List.length_append, List.length_cons, List.length_nil]
      rw [drop_append_of_le _ _ _ h1, ← List.append_assoc, h2]
      simpa using (List.range_succ (n := s.jobsLog.length)).symm
    · exact ⟨h1, h2, h3⟩
  · exact ⟨h1, h2, h3⟩

theorem playInv_playStep (s : RState) (h : playInv s) : playInv (playStep s) := by
  obtain ⟨h1, h2, h3⟩ := h
  unfold playStep
  dsimp only
  split
  case isTrue hc =>
    split
    case isTrue hr =>
      refine ⟨by simpa using hc, ?_, ?_⟩
      · have hdrop : s.speakArray.drop s.currentIndex =
            s.speakArray.getD s.currentIndex 0 :: s.speakArray.drop (s.currentIndex + 1) := by
          rw [List.getD_eq_getElem s.speakArray 0 hc]
          exact List.drop_eq_getElem_cons hc
        simp only
        rw [← h2, hdrop]
        simp
      · intro i hi
        simp only [List.mem_append, List.mem_singleton] at hi
        rcases hi with hi | hi
        · exact h3 i hi
        · subst hi
          simpa using hr
    case isFalse hr => exact ⟨h1, h2, h3⟩
  case isFalse hc =>
    split
    case isTrue hp => exact ⟨h1, h2, h3⟩
    case isFalse hp =>
      have hce : s.currentIndex = s.speakArray.length := by
        simp only [Nat.not_lt] at hc
        omega
      refine ⟨by simp, ?_, h3⟩
      simp only [List.drop_nil, List.append_nil]
      rw [← h2, hce, List.drop_length, List.append_nil]

theorem playInv_rstep (s : RState) (ev : REvent) (hev : ev ≠ REvent.stopEv)
    (h : playInv s) : playInv (rstep s ev) := by
  cases ev with
  | feed t => exact playInv_feedText s t h
  | endFeedEv => exact playInv_endFeed s h
  | resolve i =>
    obtain ⟨h1, h2, h3⟩ := h
    refine ⟨h1, h2, ?_⟩
    intro j hj
    simp only [rstep, List.mem_append]
    exact Or.inl (h3 j hj)
  | player => exact playInv_playStep s h
  | stopEv => exact absurd rfl hev

theorem playInv_rrun (tr : List REvent) :
    ∀ s : RState, playInv s → noStop tr → playInv (rrun s tr) := by
  induction tr with
  | nil => intro s h _; exact h
  | cons ev rest ih =>
    intro s h hns
    have hev : ev ≠ REvent.stopEv := by
      intro he
      exact hns (by simp [he])
    have hrest : noStop rest := by
      intro hm
      exact hns (List.mem_cons_of_mem _ hm)
    exact ih (rstep s ev) (playInv_rstep s ev hev h) hrest

/-- No position of `p` is a segmentation boundary when `c` is the character
following `p` in the input: no character of `p` is a terminator followed (in
p, or by `c` for the last one) by whitespace. -/
def noBoundaryBefore : List Char → Char → Bool
  | [], _ => true
  | [a], c => !(isTerminator a && isWsChar c)
  | a :: b :: rest, c => !(isTerminator a && isWsChar b) && noBoundaryBefore (b :: rest) c

/-- The first regex match of splitSentences on p ++ c :: s ends exactly at
the terminator c when no earlier boundary exists in p and c is followed by
whitespace or end of input. -/
theorem findTermSplit_boundary (c : Char) (hc : isTerminator c = true) :
    ∀ (p s : List Char), noBoundaryBefore p c = true →
      (s = [] ∨ isWsChar (s.headD ' ') = true) →
      findTermSplit (p ++ c :: s) = some (p ++ [c], s) := by
  intro p
  induction p with
  | nil =>
    intro s _ hs
    have hcond : (isTerminator c && (s.isEmpty || isWsChar (s.headD ' '))) = true := by
      rw [hc, Bool.true_and]
      rcases hs with rfl | hs
      · rfl
      · rw [hs, Bool.or_true]
    simp only [List.nil_append, findTermSplit]
    rw [if_pos hcond]
  | cons a p' ih =>
    intro s hnb hs
    have hnb1 : (isTerminator a && isWsChar ((p' ++ c :: s).headD ' ')) = false := by
      rcases p' with _ | ⟨b, p''⟩
      · have h := hnb
        simp only [noBoundaryBefore, Bool.not_eq_true'] at h
        simp only [List.nil_append, List.headD_cons]
        exact h
      · have h := hnb
        simp only [noBoundaryBefore, Bool.and_eq_true, Bool.not_eq_true'] at h
        simp only [List.cons_append, List.headD_cons]
        exact h.1
    have hnb2 : noBoundaryBefore p' c = true := by
      rcases p' with _ | ⟨b, p''⟩
      · rfl
      · have h := hnb
        simp only [noBoundaryBefore, Bool.and_eq_true] at h
        exact h.2
    have hne : (p' ++ c :: s).isEmpty = false := by
      rcases p' with _ | ⟨b, p''⟩ <;> simp
    have hrec := ih s hnb2 hs
    have hcnot :
        ¬((isTerminator a && ((p' ++ c :: s).isEmpty || isWsChar ((p' ++ c :: s).headD ' ')))
          = true) := by
      intro hcontra
      rw [hne, Bool.false_or, hnb1] at hcontra
      exact Bool.false_ne_true hcontra
    simp only [List.cons_append, findTermSplit, List.append_eq]
    rw [if_neg hcnot, hrec]

/-- A non-whitespace final character survives JS trim. -/
theorem mem_trimChars_last (xs : List Char) (c : Char) (h : isWsChar c = false) :
    c ∈ trimChars (xs ++ [c]) := by
  unfold trimChars
  have h1 : ∃ zs, (xs ++ [c]).dropWhile isWsChar = zs ++ [c] := by
    rw [List.dropWhile_append]
    split
    · exact ⟨[], by simp [List.dropWhile, h]⟩
    · exact ⟨xs.dropWhile isWsChar, rfl⟩
  obtain ⟨zs, hzs⟩ := h1
  rw [hzs]
  have : (zs ++ [c]).reverse = c :: zs.reverse := by simp
  rw [this]
  simp [List.dropWhile, h]

/-! Section 8: the claim theorems. -/

/-- C1: for every sequence of synthesis jobs queued by the sentencer into
speakArray, whatever order the job promises resolve in (any interleaving of
LLM fragments, TTS resolutions and playback-loop iterations, with no stop()),
the playback loop invokes playAudioData on the resolved results in strictly
increasing index order 0, 1, ..., N-1: the log of playAudioData calls is
always the initial segment 0..k-1 of the queued-job order, the unplayed
queue tail continues it exactly, and every played job's promise had resolved
(the loop awaits job i, plays it to completion in that iteration, and only
then moves to i+1). -/
theorem C1_playback_in_index_order (tr : List REvent) (h : noStop tr) :
    (rrun rinit tr).playedLog = List.range (rrun rinit tr).playedLog.length ∧
    (rrun rinit tr).playedLog ++
        (rrun rinit tr).speakArray.drop (rrun rinit tr).currentIndex =
      List.range (rrun rinit tr).jobsLog.length ∧
    ∀ i ∈ (rrun rinit tr).playedLog, i ∈ (rrun rinit tr).resolved := by
  obtain ⟨h1, h2, h3⟩ := playInv_rrun tr rinit playInv_rinit h
  refine ⟨?_, h2, h3⟩
  have hlen : (rrun rinit tr).playedLog.length ≤ (rrun rinit tr).jobsLog.length := by
    have hl := congrArg List.length h2
    simp only [List.length_append, List.length_range] at hl
    omega
  have htake := congrArg (fun l => List.take (rrun rinit tr).playedLog.length l) h2
  simp only [List.take_left, List.take_range] at htake
  rw [Nat.min_eq_left hlen] at htake
  exact htake

/-- Witness for C1: a concrete trace queuing one sentence, resolving its TTS
promise, and running one loop iteration. -/
theorem C1_witness :
    noStop [REvent.feed "Hello there. ", REvent.resolve 0, REvent.player] ∧
    (rrun rinit [REvent.feed "Hello there. ", REvent.resolve 0, REvent.player]).playedLog =
      List.range (rrun rinit
        [REvent.feed "Hello there. ", REvent.resolve 0, REvent.player]).playedLog.length :=
  ⟨by decide, (C1_playback_in_index_order _ (by decide)).1⟩

/-- C2 counterexample: after the fragment "Hi there. " the sentencer has
flushed all text (pendingContent is empty) although endPartial — the
end-of-stream signal — has never been invoked; once the single queued job is
played, the next loop iteration resolves the playback-finished promise.  The
promise is therefore resolved before end-of-stream is signaled,
contradicting the claim that resolution happens only after the sentencer has
signaled end-of-stream. -/
theorem C2_counterexample :
    (rrun rinit [REvent.feed "Hi there. ", REvent.resolve 0, REvent.player,
        REvent.player]).playEnded = true ∧
    (rrun rinit [REvent.feed "Hi there. ", REvent.resolve 0, REvent.player,
        REvent.player]).endSignaled = false := by
  decide

/-- C2 (amended): the playback-finished promise is resolved only when every
queued synthesis job has been played and no unflushed sentencer text remains
(pendingContent empty — the code's proxy for end-of-stream, which can become
empty before the stream ends); when the queue is exhausted while unflushed
text remains, the loop backs off (≈1 s) and re-checks instead of resolving. -/
theorem C2_resolution_condition (tr : List REvent) (h : noStop tr) :
    ((rrun rinit tr).playEnded = false → (playStep (rrun rinit tr)).playEnded = true →
      (rrun rinit tr).pendingContent = "" ∧
      (rrun rinit tr).speakArray.length ≤ (rrun rinit tr).currentIndex ∧
      (rrun rinit tr).playedLog = List.range (rrun rinit tr).jobsLog.length) ∧
    ((rrun rinit tr).speakArray.length ≤ (rrun rinit tr).currentIndex →
      (rrun rinit tr).pendingContent ≠ "" →
      playStep (rrun rinit tr) =
        { rrun rinit tr with backoffs := (rrun rinit tr).backoffs + 1 }) := by
  obtain ⟨h1, h2, h3⟩ := playInv_rrun tr rinit playInv_rinit h
  constructor
  · intro hend hstep
    unfold playStep at hstep
    dsimp only at hstep
    split at hstep
    case isTrue hc =>
      split at hstep
      case isTrue hr =>
        rw [hend] at hstep
        simp at hstep
      case isFalse hr =>
        rw [hend] at hstep
        simp at hstep
    case isFalse hc =>
      split at hstep
      case isTrue hp =>
        rw [hend] at hstep
        simp at hstep
      case isFalse hp =>
        have hpe : (rrun rinit tr).pendingContent = "" := not_not.mp hp
        simp only [Nat.not_lt] at hc
        refine ⟨hpe, hc, ?_⟩
        have hce : (rrun rinit tr).currentIndex = (rrun rinit tr).speakArray.length := by
          omega
        rw [hce, List.drop_length, List.append_nil] at h2
        exact h2
  · intro hle hne
    unfold playStep
    dsimp only
    rw [if_neg (by omega), if_pos hne]

/-- Witness for C2 (amended): a fragment with no sentence terminator leaves
unflushed text; the loop iteration on the exhausted queue only backs off. -/
theorem C2_witness :
    playStep (rrun rinit [REvent.feed "Hello"]) =
      { rrun rinit [REvent.feed "Hello"] with
        backoffs := (rrun rinit [REvent.feed "Hello"]).backoffs + 1 } :=
  (C2_resolution_condition [REvent.feed "Hello"] (by decide)).2 (by decide) (by decide)

/-- C5: a language-model stream callback tagged with a stale turn id performs
no state mutation — the guard currentAnswerId === this.answerId short-circuits
partial(text), endPartial() and partialThinkingCallback(t), so no text
fragment reaches the sentencer, no end-of-stream flush happens, and no
thinking text is accumulated; and entering listening advances answerId, which
is what makes a captured id stale. -/
theorem C5_stale_turn_discard (captured : Nat) (c : CState) (text : String)
    (h : captured ≠ c.answerId) :
    answerFeedCb captured c text = c ∧
    answerEndCb captured c = c ∧
    answerThinkCb captured c text = c ∧
    (setListening c).answerId ≠ c.answerId := by
  refine ⟨?_, ?_, ?_, ?_⟩
  · unfold answerFeedCb
    rw [if_neg h]
  · unfold answerEndCb
    rw [if_neg h]
  · unfold answerThinkCb
    rw [if_neg h]
  · show c.answerId + 1 ≠ c.answerId
    omega

/-- Witness for C5: a stale callback with captured id 0 against current id 1. -/
theorem C5_witness :
    answerFeedCb 0 ⟨"answer", 1, "", "", [], rinit⟩ "Hello" =
      (⟨"answer", 1, "", "", [], rinit⟩ : CState) :=
  (C5_stale_turn_discard 0 ⟨"answer", 1, "", "", [], rinit⟩ "Hello" (by decide)).1

/-- C3: if no final recognition result is delivered before the 2000 ms
timeout, the promise returned by StreamingASR.end resolves with the most
recently seen partial text — the last partial delivered before the timeout,
or the text held at end() if none (empty when no partial was ever seen) —
and if a final result arrives before the timeout it resolves with that final
text (the timeout is cancelled: later events are irrelevant).  Both cases
resolve normally; no error path exists in endOutcome. -/
theorem C3_end_timeout_fallback :
    (∀ (p : String) (evs : List (Int × Option AsrResultMsg)),
        (∀ e ∈ evs, e.1 < asrTimeoutMs → ∀ r, e.2 = some r → msgIsFinal r = false) →
        endOutcome p evs =
          ((evs.takeWhile (fun e => decide (e.1 < asrTimeoutMs))).filterMap
              (fun e => e.2.map AsrResultMsg.text)).getLastD p) ∧
    (∀ (p : String) (pre : List (Int × Option AsrResultMsg)) (t : Int)
        (r : AsrResultMsg) (rest : List (Int × Option AsrResultMsg)),
        (∀ e ∈ pre, e.1 < asrTimeoutMs ∧ ∀ r0, e.2 = some r0 → msgIsFinal r0 = false) →
        t < asrTimeoutMs → msgIsFinal r = true →
        endOutcome p (pre ++ (t, some r) :: rest) = r.text) := by
  constructor
  · intro p evs
    induction evs generalizing p with
    | nil => intro _; rfl
    | cons e rest ih =>
      obtain ⟨t, m⟩ := e
      intro hnf
      have hnf2 : ∀ e ∈ rest, e.1 < asrTimeoutMs → ∀ r, e.2 = some r → msgIsFinal r = false :=
        fun e he => hnf e (List.mem_cons_of_mem _ he)
      by_cases ht : asrTimeoutMs ≤ t
      · have hlt : ¬(t < asrTimeoutMs) := by omega
        rw [List.takeWhile_cons_of_neg (by simpa using hlt)]
        simp only [endOutcome]
        rw [if_pos ht]
        rfl
      · have hlt : t < asrTimeoutMs := by omega
        rw [List.takeWhile_cons_of_pos (by simpa using hlt)]
        simp only [endOutcome]
        rw [if_neg ht]
        cases m with
        | none =>
          simp only [List.filterMap_cons]
          exact ih p hnf2
        | some r =>
          have hf : msgIsFinal r = false :=
            hnf (t, some r) (List.mem_cons_self _ _) hlt r rfl
          simp only [List.filterMap_cons]
          rw [if_neg (by rw [hf]; exact Bool.false_ne_true)]
          refine (ih r.text hnf2).trans ?_
          exact (List.getLastD_cons _ _ _).symm
  · intro p pre t r rest
    induction pre generalizing p with
    | nil =>
      intro _ ht hf
      simp only [List.nil_append, endOutcome]
      rw [if_neg (by omega : ¬ asrTimeoutMs ≤ t)]
      rw [if_pos hf]
    | cons e pre' ih =>
      obtain ⟨t0, m0⟩ := e
      intro hpre ht hf
      have h0 := hpre (t0, m0) (List.mem_cons_self _ _)
      have hpre2 : ∀ e ∈ pre', e.1 < asrTimeoutMs ∧
          ∀ r0, e.2 = some r0 → msgIsFinal r0 = false :=
        fun e he => hpre e (List.mem_cons_of_mem _ he)
      simp only [List.cons_append, endOutcome]
      rw [if_neg (show ¬ asrTimeoutMs ≤ t0 by have := h0.1; omega)]
      cases m0 with
      | none => exact ih p hpre2 ht hf
      | some r0 =>
        have hr0 : msgIsFinal r0 = false := h0.2 r0 rfl
        dsimp only
        rw [if_neg (by rw [hr0]; exact Bool.false_ne_true)]
        exact ih r0.text hpre2 ht hf

/-- Witness for C3: the spec scenario — one partial result "turn the lig" at
100 ms, no final result before the timeout; the turn resolves with
"turn the lig". -/
theorem C3_witness :
    endOutcome "" [(100, some ⟨"turn the lig", some false⟩)] = "turn the lig" := by
  have h := C3_end_timeout_fallback.1 "" [(100, some ⟨"turn the lig", some false⟩)]
    (by
      intro e he hlt r hr
      simp only [List.mem_singleton] at he
      subst he
      cases hr
      rfl)
  rw [h]
  rfl

/-- C4: a speech-start event is emitted by SimpleVAD.processChunk exactly
when the chunk's RMS energy exceeds the threshold (stated in the equivalent
squared form sumSquares > threshold^2 * numSamples), the detector is not in
the speaking state, and at least speechDuration (minSpeechMs) has elapsed
since the last sub-threshold chunk (lastSilenceTime); and along any chunk
trace the emitted events alternate — once speaking, no further speech-start
is emitted until a speech-end occurs. -/
theorem C4_vad_hysteresis (cfg : VADConfig) (s : VADState) (now : Int)
    (chunk : List Int) (tr : List (Int × List Int)) :
    (VADEvent.speechStart ∈ (vadStep cfg s now chunk).2 ↔
      chunkIsSpeech cfg.energyThreshold chunk = true ∧ s.isSpeaking = false ∧
        cfg.speechDuration ≤ now - s.lastSilenceTime) ∧
    altOk s.isSpeaking (vadRun cfg s tr).2 = true := by
  refine ⟨?_, vadRun_altOk cfg tr s⟩
  unfold vadStep
  dsimp only
  split
  case isTrue h1 =>
    split
    case isTrue h2 =>
      simp only [Bool.and_eq_true, Bool.not_eq_true', decide_eq_true_eq] at h2
      constructor
      · intro _
        exact ⟨h1, h2.1, h2.2⟩
      · intro _
        exact List.mem_singleton.mpr rfl
    case isFalse h2 =>
      constructor
      · intro hmem
        exact absurd hmem (List.not_mem_nil _)
      · rintro ⟨_, hb, hc⟩
        exact absurd (by rw [hb]; simpa using hc) h2
  case isFalse h1 =>
    split
    case isTrue h2 =>
      constructor
      · intro hmem
        simp at hmem
      · rintro ⟨ha, _, _⟩
        exact absurd ha h1
    case isFalse h2 =>
      constructor
      · intro hmem
        exact absurd hmem (List.not_mem_nil _)
      · rintro ⟨ha, _, _⟩
        exact absurd ha h1

/-- Workhorse for C6: on a frame with the full-client layout but the server
full-response message type, parseResponse strips the header, reads the
4-byte big-endian size, decompresses and deserializes the payload. -/
theorem parseResponse_serverFrame {α : Type} (gz : ZipCodec) (ser : SerCodec α)
    (payload : List Nat) (hne : payload ≠ []) (hlt : payload.length < 2 ^ 32) :
    parseResponse gz ser (serverFullResponseFrame payload) =
      ser.deserialize (gz.decompress payload) := by
  unfold parseResponse serverFullResponseFrame
  dsimp only
  have hdrop : ((([0x11, 0x90, 0x11, 0x00] : List Nat) ++ u32be payload.length
      ++ payload).drop 4) = u32be payload.length ++ payload := by
    simp [u32be]
  have hget0 : ((([0x11, 0x90, 0x11, 0x00] : List Nat) ++ u32be payload.length
      ++ payload).getD 0 0) = 0x11 := by simp [u32be]
  have hget1 : ((([0x11, 0x90, 0x11, 0x00] : List Nat) ++ u32be payload.length
      ++ payload).getD 1 0) = 0x90 := by simp [u32be]
  have hget2 : ((([0x11, 0x90, 0x11, 0x00] : List Nat) ++ u32be payload.length
      ++ payload).getD 2 0) = 0x11 := by simp [u32be]
  rw [List.append_assoc] at hdrop hget0 hget1 hget2 ⊢
  rw [hget0, hget1, hget2]
  norm_num [hdrop, SERVER_FULL_RESPONSE]
  rw [readUInt32BE_u32be payload.length payload hlt]
  have hlen0 : ¬payload.length = 0 := by
    intro hz
    exact hne (List.length_eq_zero.mp hz)
  rw [if_neg hlen0]
  have hdrop4 : (u32be payload.length ++ payload).drop 4 = payload := by
    simp [u32be]
  rw [hdrop4]

/-- C6 counterexample: feeding the client's own full-client-request frame to
the inbound parser yields the empty object, not the original structured
value, because parseResponse recognises only the server message types
(9, 11, 15) while the full-client-request header carries message type 1 —
so the payload size stays 0 and the parser returns {} (modelled none).
Concrete instance: the identity compressor and a two-byte Nat serialization,
request value 5. -/
theorem C6_counterexample :
    parseResponse idZip natSer (fullClientRequestFrame idZip natSer 5) = none ∧
    parseResponse idZip natSer (fullClientRequestFrame idZip natSer 5) ≠ some 5 := by
  decide

/-- C6 (amended): a full-client-request frame fed back to the inbound parser
returns the empty object (type nibble 1 is not a server message type); for a
frame with the same layout tagged with the server full-response type (0x9)
and a non-empty compressed payload, decoding inverts encoding — header
construction/parsing, gzip compression/decompression and JSON
serialization/deserialization are mutually inverse and recover the original
structured value. -/
theorem C6_frame_roundtrip {α : Type} (gz : ZipCodec) (ser : SerCodec α) (req : α)
    (hne : gz.compress (ser.serialize req) ≠ [])
    (hlt : (gz.compress (ser.serialize req)).length < 2 ^ 32) :
    parseResponse gz ser (serverFullResponseFrame (gz.compress (ser.serialize req))) =
      some req := by
  rw [parseResponse_serverFrame gz ser _ hne hlt, gz.decompress_compress,
    ser.deserialize_serialize]

/-- Witness for C6 (amended): the identity compressor and the two-byte Nat
serialization round-trip the request value 7 through a full-response-tagged
frame. -/
theorem C6_witness :
    parseResponse idZip natSer
        (serverFullResponseFrame (idZip.compress (natSer.serialize 7))) = some 7 :=
  C6_frame_roundtrip idZip natSer 7 (by decide) (by decide)

/-- C7: the recognizer client never transmits audio per chunk —
send(audioData) only appends the chunk to the internal buffer (no frame is
produced and nothing else changes); a tick of the fixed 500 ms flush timer
sends the entire buffered contents, concatenated, as one single audio-only
frame and empties the buffer; end() flushes the remaining buffer one final
time as a frame carrying the terminal header (type flags marking the last
segment) and does not close the connection. -/
theorem C7_buffered_audio (gz : ZipCodec) (s : VolcState) (a : List Nat)
    (hne : s.audioBuffers ≠ []) :
    clientSend s a = { s with audioBuffers := s.audioBuffers ++ [a] } ∧
    timerTick gz s =
      { s with audioBuffers := [],
               sentFrames := s.sentFrames ++
                 [sendChunkFrame gz false s.audioBuffers.flatten] } ∧
    clientEnd gz s =
      { s with timerActive := false,
               sentFrames := s.sentFrames ++
                 [sendChunkFrame gz true s.audioBuffers.flatten] } ∧
    (clientEnd gz s).wsClosed = s.wsClosed ∧
    (sendChunkFrame gz true s.audioBuffers.flatten).take 4 = DefaultLastAudioWsHeader ∧
    sendIntervalMs = 500 := by
  have hemp : ¬s.audioBuffers.isEmpty = true := by
    simp only [List.isEmpty_iff]
    exact hne
  have hend : clientEnd gz s =
      { s with timerActive := false,
               sentFrames := s.sentFrames ++
                 [sendChunkFrame gz true s.audioBuffers.flatten] } := by
    unfold clientEnd
    dsimp only
    rw [if_neg hemp]
  refine ⟨rfl, ?_, hend, ?_, ?_, rfl⟩
  · unfold timerTick
    rw [if_neg hemp]
  · rw [hend]
  · show (DefaultLastAudioWsHeader ++ _).take 4 = DefaultLastAudioWsHeader
    rw [show (4 : Nat) = DefaultLastAudioWsHeader.length from rfl, List.take_left]

/-- Witness for C7: a concrete client state with one buffered chunk. -/
theorem C7_witness :
    clientSend ⟨[[1, 2]], [], true, false⟩ [3] =
      (⟨[[1, 2], [3]], [], true, false⟩ : VolcState) :=
  (C7_buffered_audio idZip ⟨[[1, 2]], [], true, false⟩ [3] (by decide)).1

/-- C8: evaluation of the segmenter at the claim's input and at a
digit/punctuation-only input.  On "Hello world. This is 3.14 and more text."
the extraction splits after "world." and after the final terminator and not
at "3." (the decimal point fails the whitespace lookahead), the two
sentences then being merged by the ≤ 60-character rule; but on "1." the
candidate consisting only of a digit and a period is extracted as a
sentence, not rejected: the containment test of splitSentences passes for
every candidate (each ends in a terminator), so the rejection branch the
spec describes is unreachable. -/
theorem C8_segmentation_eval :
    extractRaw "Hello world. This is 3.14 and more text.".data =
      (["Hello world.".data, "This is 3.14 and more text.".data], []) ∧
    splitSentences "Hello world. This is 3.14 and more text." =
      (["Hello world. This is 3.14 and more text. "], "") ∧
    splitSentences "1." = (["1. "], "") := by
  decide

/-- C10: splitSentences treats the comma characters ',' and '，' as sentence
boundaries exactly like sentence-terminating punctuation: both are in the
terminator class, and a prefix (containing no earlier boundary) ending in a
comma followed by whitespace or end of input is extracted as a complete
sentence of its own, extraction continuing independently on the rest — so
replies are split at commas, with the extracted sentences then subject to
the ≤ 60-character merging before being dispatched as synthesis jobs. -/
theorem C10_comma_boundary (p s : List Char) (c : Char)
    (hc : c = ',' ∨ c = '，') (hnb : noBoundaryBefore p c = true)
    (hs : s = [] ∨ isWsChar (s.headD ' ') = true) :
    isTerminator c = true ∧
    (extractRaw (p ++ c :: s)).1 = trimChars (p ++ [c]) :: (extractRaw s).1 ∧
    (extractRaw (p ++ c :: s)).2 = (extractRaw s).2 := by
  have hct : isTerminator c = true := by rcases hc with rfl | rfl <;> rfl
  have hnw : isWsChar c = false := by rcases hc with rfl | rfl <;> rfl
  have hsplit := findTermSplit_boundary c hct p s hnb hs
  have hdp : hasDigitOrPunct (trimChars (p ++ [c])) = true := by
    unfold hasDigitOrPunct
    rw [List.any_eq_true]
    exact ⟨c, mem_trimChars_last p c hnw, by rw [hct, Bool.or_true]⟩
  have hu := extractRaw_unfold (p ++ c :: s)
  rw [hsplit] at hu
  dsimp only at hu
  rw [if_pos hdp] at hu
  exact ⟨hct, by rw [hu], by rw [hu]⟩

/-- Witness for C10: the prefix "Hello" followed by a comma and " world" is
extracted as the sentence "Hello,". -/
theorem C10_witness :
    (extractRaw ("Hello".data ++ ',' :: " world".data)).1 =
      trimChars ("Hello".data ++ [',']) :: (extractRaw " world".data).1 :=
  (C10_comma_boundary "Hello".data " world".data ','
    (Or.inl rfl) (by decide) (by decide)).2.1

/-! Section 9: a refined model of the playback loop for barge-in traces.  In
the source (StreamResponser.playAudioInOrder, lines 40-52) playNext checks
`currentIndex < this.speakArray.length` against the live array, sets
isPlaying, and then suspends at `await this.speakArray[currentIndex]` — the
continuation holds the captured promise.  stop() clears the live array but
cannot revoke the captured promise: when the TTS promise resolves, the
continuation resumes and proceeds straight to `await playAudioData(...)`
with no re-check of the queue.  BargeState makes that suspension point
explicit (awaitingJob); only the fields the barge-in claim is about are
carried (the answer-state button handler also clears parsedSentences and
re-registers device handlers, which are external or irrelevant here).
A sentence counts as played when playAudioData is invoked on its result. -/

/-- Playback-loop state with an explicit suspension point: awaitingJob is
the synthesis promise captured by a playNext activation currently suspended
at `await this.speakArray[currentIndex]` (none when the loop is at its top
or finished).  flowName and answerId are the controller fields the barge-in
handler touches; the remaining fields are as in RState. -/
structure BargeState where
  flowName : String
  answerId : Nat
  speakArray : List Nat
  pendingContent : String
  currentIndex : Nat
  isPlaying : Bool
  awaitingJob : Option Nat
  resolved : List Nat
  playedLog : List Nat
  playEnded : Bool
  deviceStopped : Bool
  backoffs : Nat
deriving DecidableEq, Repr

/-- Events of the refined playback model: the loop reaching its top (check),
the suspended continuation resuming after its awaited promise settled
(resume), a TTS promise resolving, and the answering-state button press. -/
inductive PEvent
  | check
  | resume
  | resolve (i : Nat)
  | stopBtn
deriving DecidableEq, Repr

/-- The top of playNext: no-op while a continuation is suspended; otherwise,
when a job is queued at currentIndex, set isPlaying and suspend awaiting
that job's promise (capturing it); when the queue is exhausted but
pendingContent is non-empty, back off 1 s; otherwise resolve the play-end
promise and clear the array. -/
def bCheck (s : BargeState) : BargeState :=
  match s.awaitingJob with
  | some _ => s
  | none =>
    if s.currentIndex < s.speakArray.length then
      { s with isPlaying := true,
               awaitingJob := some (s.speakArray.getD s.currentIndex 0) }
    else if s.pendingContent ≠ "" then { s with backoffs := s.backoffs + 1 }
    else
      { s with isPlaying := false, playEnded := true, speakArray := [], currentIndex := 0 }

/-- Resumption of the suspended continuation: once the awaited promise has
resolved, the continuation invokes playAudioData on the captured result —
regardless of the live speakArray, which it does not re-check — and
advances currentIndex, returning to the loop top. -/
def bResume (s : BargeState) : BargeState :=
  match s.awaitingJob with
  | none => s
  | some gid =>
    if gid ∈ s.resolved then
      { s with playedLog := s.playedLog ++ [gid],
               currentIndex := s.currentIndex + 1,
               awaitingJob := none }
    else s

/-- The answering-state onButtonPressed handler (ChatFlow lines 507-510):
StreamResponser.stop() — clear the queue and pending text, resolve the
play-end promise, halt the audio-output device — then
setCurrentFlow("listening"), which sets the flow name and increments the
turn id.  The suspended continuation (awaitingJob) is untouched: stop()
cannot revoke a captured promise. -/
def bOnButtonPressed (s : BargeState) : BargeState :=
  { s with speakArray := [], pendingContent := "", isPlaying := false,
           playEnded := true, deviceStopped := true,
           flowName := "listening", answerId := s.answerId + 1 }

/-- Apply one event of the refined model. -/
def bstep (s : BargeState) : PEvent → BargeState
  | .check => bCheck s
  | .resume => bResume s
  | .resolve i => { s with resolved := s.resolved ++ [i] }
  | .stopBtn => bOnButtonPressed s

/-- Run a trace of refined-model events. -/
def brun (s : BargeState) (tr : List PEvent) : BargeState :=
  tr.foldl bstep s

/-- With the queue and pending text cleared and no continuation suspended,
no event sequence whatsoever plays anything further. -/
theorem bquiet_no_play (tr : List PEvent) :
    ∀ s : BargeState, s.speakArray = [] → s.pendingContent = "" →
      s.awaitingJob = none → (brun s tr).playedLog = s.playedLog := by
  induction tr with
  | nil => intro s _ _ _; rfl
  | cons ev rest ih =>
    intro s h1 h2 h3
    have hrw : brun s (ev :: rest) = brun (bstep s ev) rest := rfl
    cases ev with
    | check =>
      have hstep : bstep s PEvent.check =
          { s with isPlaying := false, playEnded := true, speakArray := [],
                   currentIndex := 0 } := by
        show bCheck s = _
        simp [bCheck, h1, h2, h3]
      rw [hrw, hstep]
      exact ih _ rfl h2 h3
    | resume =>
      have hstep : bstep s PEvent.resume = s := by
        show bResume s = _
        simp [bResume, h3]
      rw [hrw, hstep]
      exact ih s h1 h2 h3
    | resolve i =>
      rw [hrw]
      exact ih _ h1 h2 h3
    | stopBtn =>
      rw [hrw]
      exact ih _ rfl rfl h3

/-- An answering-state playback configuration: one queued synthesis job
(id 0) whose TTS promise has not resolved, playback loop at its top. -/
def bargeInit : BargeState :=
  { flowName := "answer", answerId := 3, speakArray := [0], pendingContent := "",
    currentIndex := 0, isPlaying := true, awaitingJob := none, resolved := [],
    playedLog := [], playEnded := false, deviceStopped := false, backoffs := 0 }

/-- C9 counterexample: from an answering state with one queued, unresolved
synthesis job, the loop checks the live queue and suspends awaiting job 0;
the button handler then stops playback (device halted, queue cleared) and
switches to listening with nothing played yet; when the TTS promise later
resolves, the suspended continuation resumes and invokes playAudioData on
the captured result — a queued sentence plays after the stop, refuting the
claim that stop() runs before any further queued sentence can be played. -/
theorem C9_counterexample :
    (brun bargeInit [PEvent.check, PEvent.stopBtn]).deviceStopped = true ∧
    (brun bargeInit [PEvent.check, PEvent.stopBtn]).speakArray = [] ∧
    (brun bargeInit [PEvent.check, PEvent.stopBtn]).flowName = "listening" ∧
    (brun bargeInit [PEvent.check, PEvent.stopBtn]).playedLog = [] ∧
    (brun bargeInit [PEvent.check, PEvent.stopBtn, PEvent.resolve 0,
        PEvent.resume]).playedLog = [0] := by
  decide

/-- C9 (amended): the answering-state button handler stops playback —
clearing the pending synthesis queue and halting the audio-output device —
and immediately afterwards the controller is in listening with a new turn
id; queued sentences the loop has not yet begun awaiting never play
afterwards, but when the loop is suspended on `await speakArray[currentIndex]`
at the moment of the trigger, that one already-awaited job is still passed
to the audio device once its promise resolves, since the suspended
continuation holds the captured promise and does not re-check the queue. -/
theorem C9_barge_in_amended (s : BargeState) (gid : Nat) :
    (bOnButtonPressed s).deviceStopped = true ∧
    (bOnButtonPressed s).speakArray = [] ∧
    (bOnButtonPressed s).flowName = "listening" ∧
    (bOnButtonPressed s).answerId = s.answerId + 1 ∧
    (s.awaitingJob = none →
      ∀ tr : List PEvent, (brun (bOnButtonPressed s) tr).playedLog = s.playedLog) ∧
    (s.awaitingJob = some gid → gid ∈ s.resolved →
      (bResume (bOnButtonPressed s)).playedLog = s.playedLog ++ [gid]) := by
  refine ⟨rfl, rfl, rfl, rfl, ?_, ?_⟩
  · intro hn tr
    exact bquiet_no_play tr (bOnButtonPressed s) rfl rfl hn
  · intro ha hr
    have ha2 : (bOnButtonPressed s).awaitingJob = some gid := ha
    simp only [bResume, ha2]
    rw [if_pos (show gid ∈ (bOnButtonPressed s).resolved from hr)]
    rfl

/-- Witness for C9 (amended): a suspended-and-resolved job plays after the
stop; with no suspension, a later loop iteration plays nothing. -/
theorem C9_witness :
    (bResume (bOnButtonPressed
        { bargeInit with awaitingJob := some 0, resolved := [0] })).playedLog = [0] ∧
    (brun (bOnButtonPressed bargeInit) [PEvent.check]).playedLog = [] := by
  constructor
  · exact (C9_barge_in_amended
      { bargeInit with awaitingJob := some 0, resolved := [0] } 0).2.2.2.2.2 rfl (by decide)
  · exact (C9_barge_in_amended bargeInit 0).2.2.2.2.1 rfl [PEvent.check]

end Whisplay
